import Mathlib

/-!
Shallow embedding of the `terraform-provider-zesty` repository.

The Go packages are mirrored as Lean namespaces:
  * `Models`   embeds `internal/models/models.go`
  * `Client`   embeds `internal/client` (client implementation)
  * `Provider` embeds `internal/provider` (`conversion_utilities`,
    `provider.go` data source and `account_resource.go`)

Go machine-level features are modelled as follows: the dynamic type
`interface\x7b\x7d` (`any`) becomes the inductive `GoValue`; the maps
`map[string]any` and `map[Product]ProductDetails` become association
lists whose keys are unique (Go map semantics); fallible Go functions
that return `(T, error)` or `(T, diag.Diagnostics)` become `Except`.
-/

/-- Go dynamic value (`any`), restricted to the JSON-decodable shapes an
`Account.AdditionalData` entry can actually hold. `null` is the Go `nil`
interface value. -/
inductive GoValue where
  | null
  | str (s : String)
  | int (n : Int)
  | bool (b : Bool)
  | list (xs : List GoValue)
  | map (entries : List (String × GoValue))

/-- Go `v != nil` test on an `any` value. -/
def GoValue.isNull : GoValue → Bool
  | .null => true
  | _ => false

/-- Success of the Go type assertion `v.(string)`. -/
def GoValue.isString : GoValue → Bool
  | .str _ => true
  | _ => false

/-- Go `fmt.Sprintf("%T", v)` on an `any` value holding a JSON-decodable
shape: the name of the dynamic type. -/
def goTypeName : GoValue → String
  | .null => "<nil>"
  | .str _ => "string"
  | .int _ => "int"
  | .bool _ => "bool"
  | .list _ => "[]interface \x7b\x7d"
  | .map _ => "map[string]interface \x7b\x7d"

/-- Insertion step for sorting the entries of a Go map by key, as the
YAML encoder does before emitting a map. -/
def insertEntry (kv : String × GoValue) : List (String × GoValue) → List (String × GoValue)
  | [] => [kv]
  | e :: es => if kv.1 ≤ e.1 then kv :: e :: es else e :: insertEntry kv es

/-- Sort Go map entries by key (the YAML encoder emits map keys in
sorted order, which also makes the embedding independent of Go map
iteration order). -/
def sortEntries : List (String × GoValue) → List (String × GoValue)
  | [] => []
  | e :: es => insertEntry e (sortEntries es)

mutual

/-- Rendering of a scalar or nested value by `gopkg.in/yaml.v3`.
Scalars are rendered in plain style; nested collections are rendered in
flow style and in entry order (yaml.v3 uses block style and sorted keys
for nested collections, but no property in this development depends on
the rendering of a nested collection, only on scalar-valued maps). -/
def yamlValue : GoValue → String
  | .null => "null"
  | .str s => s
  | .int n => toString n
  | .bool b => cond b "true" "false"
  | .list xs => "[" ++ yamlValueList xs ++ "]"
  | .map es => "\x7b" ++ yamlEntryList es ++ "\x7d"

/-- Comma-separated rendering of a value list. -/
def yamlValueList : List GoValue → String
  | [] => ""
  | [x] => yamlValue x
  | x :: xs => yamlValue x ++ ", " ++ yamlValueList xs

/-- Comma-separated rendering of map entries. -/
def yamlEntryList : List (String × GoValue) → String
  | [] => ""
  | [e] => e.1 ++ ": " ++ yamlValue e.2
  | e :: es => e.1 ++ ": " ++ yamlValue e.2 ++ ", " ++ yamlEntryList es

end

/-- Models `yaml.Marshal` of a `map[string]any` value: the empty map is
rendered as the flow document `\x7b\x7d` followed by a newline, a
non-empty map as one `key: value` line per entry with the keys in sorted
order (yaml.v3 sorts map keys while encoding). -/
def yamlMarshal (m : List (String × GoValue)) : String :=
  match sortEntries m with
  | [] => "\x7b\x7d\n"
  | entries => String.join (entries.map (fun kv => kv.1 ++ ": " ++ yamlValue kv.2 ++ "\n"))

namespace Models

/-- `models.DefaultHostURL`: the fixed production URL the provider
configuration falls back to. -/
def DefaultHostURL : String := "https://api.cloudvisor.io/kompass-platform"

/-- `models.ProductDetails`. -/
structure ProductDetails where
  active : Bool
  deriving DecidableEq, Repr

/-- `models.Payload` (client-to-server write request). `CloudProvider`
and `Product` are string aliases in Go and are embedded as `String`. -/
structure Payload where
  accountID : String
  cloudProvider : String
  awsRegion : Option String
  roleARN : String
  externalID : String
  products : List (String × ProductDetails)
  deriving DecidableEq, Repr

/-- `models.Account` (server-side record). `time.Time` stamps are
modelled as abstract instants (`Nat`); they are never inspected. -/
structure Account where
  organizationID : Int := 0
  onboardingStatus : String := ""
  accountID : String
  awsRegion : Option String := none
  cloudProvider : String
  products : List (String × ProductDetails)
  createdAt : Nat := 0
  updatedAt : Nat := 0
  additionalData : List (String × GoValue)

end Models

namespace Client

/-- `client.DefaultHostURL`: the default used by `NewClient` when no
host is passed. Distinct from `Models.DefaultHostURL`. -/
def DefaultHostURL : String := "http://localhost:9000"

/-- The `http.Client` field that the repository sets: its timeout. -/
structure HTTPClient where
  timeoutSeconds : Nat
  deriving DecidableEq, Repr

/-- `client.Client`. -/
structure Client where
  hostURL : String
  httpClient : HTTPClient
  token : String
  deriving DecidableEq, Repr

/-- `client.NewClient(host *string, token string) (*Client, error)`:
builds the client with a 60-second timeout and the default host URL,
overrides the host when a non-nil pointer is passed, then stores the
token. It never returns an error. -/
def NewClient (host : Option String) (token : String) : Except String Client :=
  let c : Client := { httpClient := { timeoutSeconds := 60 }, hostURL := DefaultHostURL, token := "" }
  let c : Client :=
    match host with
    | some h => { c with hostURL := h }
    | none => c
  let c : Client := { c with token := token }
  Except.ok c

/-- An outgoing HTTP request as the repository builds it. -/
structure Request where
  method : String
  url : String
  headers : List (String × String)
  body : Option String
  deriving DecidableEq, Repr

/-- Go `http.Header.Set`: replace any existing value of the key, else
add it. -/
def setHeader (headers : List (String × String)) (key value : String) : List (String × String) :=
  (headers.filter (fun kv => kv.1 != key)) ++ [(key, value)]

/-- Outcome of one HTTP round trip, as observed by `DoRequest` after
`HTTPClient.Do` and `io.ReadAll`: either a transport-level failure (no
response obtained), a failure reading the response body, or a response
with a status code and a fully read body. -/
inductive HTTPResult where
  | transportError (e : String)
  | readError (e : String)
  | response (status : Nat) (body : String)

/-- The request `DoRequest` actually sends: the incoming request with
the `x-api-key` header set to the client token. -/
def reqWithAuth (c : Client) (req : Request) : Request :=
  { req with headers := setHeader req.headers "x-api-key" c.token }

/-- `(*Client).DoRequest`: sets the auth header, performs the exchange
(`transport` abstracts the network), propagates a transport or body-read
error unchanged, and otherwise classifies the status: anything other
than 200 or 201 is the error `status: <code>, body: <raw body>`, and
200 or 201 returns the raw body. -/
def DoRequest (c : Client) (transport : Request → HTTPResult) (req : Request) : Except String String :=
  match transport (reqWithAuth c req) with
  | .transportError e => .error e
  | .readError e => .error e
  | .response status body =>
    if status ≠ 200 ∧ status ≠ 201 then
      .error ("status: " ++ toString status ++ ", body: " ++ body)
    else
      .ok body

end Client

namespace Provider

/-- One `diag.Diagnostic` as the provider raises it: an error with a
summary and a detail string. -/
structure Diag where
  summary : String
  detail : String
  deriving DecidableEq, Repr

/-- Spec error taxonomy: the conversion diagnostics the spec calls
`MissingField` are the ones raised when a dynamic field is absent. -/
def Diag.isMissingField (d : Diag) : Bool :=
  d.summary == "Missing role ARN for account" || d.summary == "Missing external ID for account"

/-- Spec error taxonomy: the conversion diagnostics the spec calls
`TypeMismatch` are the ones raised when a dynamic field is present but
not a string. -/
def Diag.isTypeMismatch (d : Diag) : Bool :=
  d.summary == "Erroneous role ARN for account" || d.summary == "Erroneous external ID for account"

/-- The `productModel` Terraform object. The `values` attribute is
`types.String`, whose Go zero value is the null string: it is modelled
as `Option String`, `none` when a code path never assigns it. -/
structure ProductModel where
  name : String
  active : Bool
  values : Option String
  deriving DecidableEq, Repr

/-- The `accountModel` Terraform object (presentation model). -/
structure AccountModel where
  id : String
  cloudProvider : String
  awsRegion : Option String := none
  roleARN : String
  externalID : String
  products : List ProductModel
  deriving DecidableEq, Repr

/-- Computable decidability of the lexicographic order on strings (the
library instance is defined by well-founded recursion on iterators and
does not reduce inside the kernel; this one compares the underlying
character lists structurally, so concrete sorts evaluate). -/
instance strDecLE : DecidableRel (α := String) (· ≤ ·) := fun a b =>
  decidable_of_iff (a.toList ≤ b.toList) String.le_iff_toList_le.symm

/-- `sort.Strings`, as used on the collected product names. Go compares
strings byte-lexicographically; on the ASCII product names this agrees
with the character-wise lexicographic order used here. -/
def sortStrings (l : List String) : List String :=
  List.insertionSort (· ≤ ·) l

/-- The product-list construction shared verbatim by `ToModel` and the
data-source `Read` loop: collect the product names, sort them, and emit
one entry per name carrying its `Active` flag; `ToModel` assigns the
serialized values blob to each entry (`values = some blob`) while the
data-source loop never assigns `Values` (`values = none`). Indexing a
Go map with a missing key yields the zero value `ProductDetails{}`. -/
def buildProducts (products : List (String × Models.ProductDetails)) (values : Option String) : List ProductModel :=
  (sortStrings (products.map Prod.fst)).map (fun name =>
    { name := name,
      active := ((List.lookup name products).getD ⟨false⟩).active,
      values := values })

/-- `provider.parseValues`: extract the "values" sub-map of the
additional data, failing soft to an empty map when absent or not a map,
and drop every entry whose value is nil as well as the entry with the
literal key "metadata". -/
def parseValues (input : List (String × GoValue)) : List (String × GoValue) :=
  match List.lookup "values" input with
  | none => []
  | some values =>
    match values with
    | .map valuesMap => valuesMap.filter (fun kv => !kv.2.isNull && kv.1 != "metadata")
    | _ => []

/-- `provider.ToModel`: validate the "roleARN" and "externalID" entries
of the additional data (absent → missing-field diagnostic, non-string →
type-mismatch diagnostic, checked in that order), serialize the filtered
"values" map once, and build the presentation model with the sorted
product list. The detail text of the external-ID type mismatch
interpolates `roleARN` (as the source does), not the offending value. -/
def ToModel (account : Models.Account) : Except Diag AccountModel :=
  match List.lookup "roleARN" account.additionalData with
  | none =>
    .error ⟨"Missing role ARN for account", "account.AdditionalData.roleARN is nil or empty"⟩
  | some roleARN =>
    match roleARN with
    | .str roleARNString =>
      (match List.lookup "externalID" account.additionalData with
       | none =>
         .error ⟨"Missing external ID for account", "account.AdditionalData.externalID is nil or empty"⟩
       | some externalID =>
         match externalID with
         | .str externalIDString =>
           let rawValues := parseValues account.additionalData
           let valuesBytes := yamlMarshal rawValues
           .ok { id := account.accountID,
                 cloudProvider := account.cloudProvider,
                 roleARN := roleARNString,
                 externalID := externalIDString,
                 products := buildProducts account.products (some valuesBytes) }
         | _ =>
           .error ⟨"Erroneous external ID for account",
                   "Expected string for external ID but got " ++ goTypeName roleARN⟩)
    | _ =>
      .error ⟨"Erroneous role ARN for account",
              "Expected string for role ARN but got " ++ goTypeName roleARN⟩

/-- The per-account body of `(*AccountsDataSource).Read`: the same
inline presence and string-type checks on "roleARN" and "externalID"
(the diagnostic detail is the account ID here), then the account state
with the sorted product list; the `Values` attribute of each product is
never assigned. -/
def readAccountModel (account : Models.Account) : Except Diag AccountModel :=
  match List.lookup "roleARN" account.additionalData with
  | none => .error ⟨"Missing role ARN for account", account.accountID⟩
  | some roleARN =>
    match roleARN with
    | .str roleARNString =>
      (match List.lookup "externalID" account.additionalData with
       | none => .error ⟨"Missing external ID for account", account.accountID⟩
       | some externalID =>
         match externalID with
         | .str externalIDString =>
           .ok { id := account.accountID,
                 cloudProvider := account.cloudProvider,
                 roleARN := roleARNString,
                 externalID := externalIDString,
                 products := buildProducts account.products none }
         | _ => .error ⟨"Erroneous external ID for account", account.accountID⟩)
    | _ => .error ⟨"Erroneous role ARN for account", account.accountID⟩

/-- The account loop of `(*AccountsDataSource).Read`: convert each
listed account in order, aborting the whole read with the diagnostic of
the first account that fails a check. -/
def AccountsDataSourceRead : List Models.Account → Except Diag (List AccountModel)
  | [] => .ok []
  | account :: rest =>
    match readAccountModel account with
    | .error d => .error d
    | .ok m =>
      match AccountsDataSourceRead rest with
      | .error d => .error d
      | .ok ms => .ok (m :: ms)

/-- The managed resource state: the `id` attribute, the nested account
object, and the `last_updated` timestamp (null until Create/Update). -/
structure AccountResourceModel where
  id : String
  account : AccountModel
  lastUpdated : Option String
  deriving DecidableEq, Repr

/-- The payload both `Create` and `Update` build from the planned
account object (region is never set; products are collected from the
planned list). -/
def payloadFromPlan (account : AccountModel) : Models.Payload :=
  { accountID := account.id,
    cloudProvider := account.cloudProvider,
    awsRegion := none,
    roleARN := account.roleARN,
    externalID := account.externalID,
    products := account.products.map (fun p => (p.name, ⟨p.active⟩)) }

/-- `(*AccountResource).Create`: build the payload from the plan, call
the create API (abstracted as `api`), convert the returned account, and
produce the new resource state with a fresh `last_updated` stamp; any
API error or conversion diagnostic aborts with an error diagnostic. -/
def Create (plan : AccountResourceModel) (api : Models.Payload → Except String Models.Account) (now : String) : Except Diag AccountResourceModel :=
  match api (payloadFromPlan plan.account) with
  | .error e =>
    .error ⟨"Error creating account", "Could not create account, unexpected error: " ++ e⟩
  | .ok account =>
    match ToModel account with
    | .error d => .error d
    | .ok model => .ok { id := account.accountID, account := model, lastUpdated := some now }

/-- `(*AccountResource).Read`: fetch the account by the stored id,
convert it, and replace the account object of the state; any API error
or conversion diagnostic aborts with an error diagnostic. -/
def Read (state : AccountResourceModel) (api : String → Except String Models.Account) : Except Diag AccountResourceModel :=
  match api state.id with
  | .error e =>
    .error ⟨"Error Reading Zesty Account", "Could not read account ID " ++ state.id ++ ": " ++ e⟩
  | .ok account =>
    match ToModel account with
    | .error d => .error d
    | .ok model => .ok { state with account := model }

/-- `(*AccountResource).Update`: like Create but via the update API;
the resulting id is taken from the converted model. -/
def Update (plan : AccountResourceModel) (api : Models.Payload → Except String Models.Account) (now : String) : Except Diag AccountResourceModel :=
  match api (payloadFromPlan plan.account) with
  | .error e =>
    .error ⟨"Error Updating Zesty Account", "Could not update account, unexpected error: " ++ e⟩
  | .ok updatedAccount =>
    match ToModel updatedAccount with
    | .error d => .error d
    | .ok model => .ok { id := model.id, account := model, lastUpdated := some now }

/-- The payload `(*AccountResource).Delete` builds from the current
state: identifier fields only, no products. -/
def deletePayload (state : AccountResourceModel) : Models.Payload :=
  { accountID := state.account.id,
    cloudProvider := state.account.cloudProvider,
    awsRegion := none,
    roleARN := state.account.roleARN,
    externalID := state.account.externalID,
    products := [] }

/-- `(*AccountResource).Delete`: build the deletion payload from the
current state (identifier fields only) and call the delete API; an API
error aborts with an error diagnostic. -/
def Delete (state : AccountResourceModel) (api : Models.Payload → Except String Unit) : Except Diag Unit :=
  match api (deletePayload state) with
  | .error e =>
    .error ⟨"Error Deleting account", "Could not delete account, unexpected error: " ++ e⟩
  | .ok _ => .ok ()

/-- `(*AccountResource).ImportState`: fetch the account by the imported
id, convert it, and produce the reconstructed state (no `last_updated`
stamp); any API error or conversion diagnostic aborts with an error
diagnostic. -/
def ImportState (id : String) (api : String → Except String Models.Account) : Except Diag AccountResourceModel :=
  match api id with
  | .error e =>
    .error ⟨"Error importing resource", "Could not read resource with ID \"" ++ id ++ "\": " ++ e⟩
  | .ok account =>
    match ToModel account with
    | .error d => .error d
    | .ok model => .ok { id := id, account := model, lastUpdated := none }

/-- Modelled from the spec: the hosting plugin framework commits the
response state of a CRUD transition only when the transition raised no
error diagnostic ("On failure ..., aborts the transition, leaving prior
persisted state untouched"); the repository itself returns early on
every failure path before calling `State.Set`. -/
def persist (prior : Option AccountResourceModel) (result : Except Diag AccountResourceModel) : Option AccountResourceModel :=
  match result with
  | .error _ => prior
  | .ok st => some st

/-- Modelled from the spec, for Delete: on success the framework removes
the resource from state; on an error diagnostic the prior state is kept. -/
def persistDelete (prior : Option AccountResourceModel) (result : Except Diag Unit) : Option AccountResourceModel :=
  match result with
  | .error _ => prior
  | .ok _ => none

/-- The value-resolution step of `(*ZestyProvider).Configure` (after the
unknown-value guards): each of host and token starts from its
environment variable and is overridden by a non-null explicit setting;
an empty resolved host falls back to `models.DefaultHostURL`; an empty
resolved token is the only failure. On success the resolved pair is
returned. -/
def Configure (configHost configToken : Option String) (envHost envToken : String) : Except Diag (String × String) :=
  let host := envHost
  let token := envToken
  let host :=
    match configHost with
    | some h => h
    | none => host
  let token :=
    match configToken with
    | some t => t
    | none => token
  let host := if host = "" then Models.DefaultHostURL else host
  if token = "" then
    .error ⟨"Missing Zesty API Token",
            "The provider cannot create the Zesty API client as there is a missing or empty value for the Zesty API token."⟩
  else
    .ok (host, token)

end Provider

/-- Success test of an `Except` result (`err == nil` in Go). -/
def isOkE {ε α : Type} : Except ε α → Bool
  | .ok _ => true
  | .error _ => false

open Provider

lemma sortStrings_sorted (l : List String) : List.Sorted (· ≤ ·) (sortStrings l) :=
  List.sorted_insertionSort _ l

lemma sortStrings_perm (l : List String) : (sortStrings l).Perm l :=
  List.perm_insertionSort _ l

lemma sortStrings_eq_of_perm {l₁ l₂ : List String} (h : l₁.Perm l₂) :
    sortStrings l₁ = sortStrings l₂ :=
  List.eq_of_perm_of_sorted ((sortStrings_perm l₁).trans (h.trans (sortStrings_perm l₂).symm))
    (sortStrings_sorted l₁) (sortStrings_sorted l₂)

lemma lookup_eq_of_perm {β : Type} {l₁ l₂ : List (String × β)} (h : l₁.Perm l₂)
    (hnd : (l₁.map Prod.fst).Nodup) (k : String) :
    List.lookup k l₁ = List.lookup k l₂ := by
  induction h with
  | nil => rfl
  | cons x h ih =>
    obtain ⟨xa, xb⟩ := x
    simp only [List.map_cons, List.nodup_cons] at hnd
    simp only [List.lookup]
    cases k == xa with
    | true => rfl
    | false => exact ih hnd.2
  | swap x y l =>
    obtain ⟨xa, xb⟩ := x
    obtain ⟨ya, yb⟩ := y
    simp only [List.map_cons, List.nodup_cons, List.mem_cons] at hnd
    have hxy : ya ≠ xa := fun e => hnd.1 (Or.inl e)
    have bxy : (ya == xa) = false := beq_eq_false_iff_ne.mpr hxy
    have byx : (xa == ya) = false := beq_eq_false_iff_ne.mpr (Ne.symm hxy)
    by_cases h1 : k = ya <;> by_cases h2 : k = xa
    · exact absurd (h1.symm.trans h2) hxy
    · simp [List.lookup, h1, bxy]
    · simp [List.lookup, h2, byx]
    · have b1 : (k == ya) = false := beq_eq_false_iff_ne.mpr h1
      have b2 : (k == xa) = false := beq_eq_false_iff_ne.mpr h2
      simp [List.lookup, b1, b2]
  | trans h₁ h₂ ih₁ ih₂ =>
    rw [ih₁ hnd, ih₂ (((h₁.map Prod.fst).nodup_iff).mp hnd)]

lemma buildProducts_map_name (products : List (String × Models.ProductDetails)) (values : Option String) :
    (buildProducts products values).map ProductModel.name = sortStrings (products.map Prod.fst) := by
  simp only [buildProducts, List.map_map]
  generalize sortStrings (products.map Prod.fst) = l
  induction l with
  | nil => rfl
  | cons x xs ih => simpa using ih

lemma buildProducts_values_mem (products : List (String × Models.ProductDetails)) (values : Option String) :
    ∀ p ∈ buildProducts products values, p.values = values := by
  intro p hp
  simp only [buildProducts, List.mem_map] at hp
  obtain ⟨n, _, rfl⟩ := hp
  rfl

lemma buildProducts_nameActive (products : List (String × Models.ProductDetails)) (values : Option String) :
    (buildProducts products values).map (fun p => (p.name, p.active)) =
      (sortStrings (products.map Prod.fst)).map
        (fun n => (n, ((List.lookup n products).getD ⟨false⟩).active)) := by
  simp [buildProducts, List.map_map, Function.comp]

lemma buildProducts_eq_of_perm {p₁ p₂ : List (String × Models.ProductDetails)}
    (h : p₁.Perm p₂) (hnd : (p₁.map Prod.fst).Nodup) (values : Option String) :
    buildProducts p₁ values = buildProducts p₂ values := by
  unfold buildProducts
  rw [sortStrings_eq_of_perm (h.map Prod.fst)]
  have hl : ∀ name, List.lookup name p₁ = List.lookup name p₂ := lookup_eq_of_perm h hnd
  simp only [hl]

lemma ToModel_ok_inv {a : Models.Account} {m : AccountModel} (hm : ToModel a = .ok m) :
    ∃ rs es, List.lookup "roleARN" a.additionalData = some (.str rs) ∧
      List.lookup "externalID" a.additionalData = some (.str es) ∧
      m = { id := a.accountID, cloudProvider := a.cloudProvider, roleARN := rs, externalID := es,
            products := buildProducts a.products (some (yamlMarshal (parseValues a.additionalData))) } := by
  unfold ToModel at hm
  cases h₁ : List.lookup "roleARN" a.additionalData with
  | none => rw [h₁] at hm; simp at hm
  | some v =>
    rw [h₁] at hm
    cases v with
    | null => simp at hm
    | int n => simp at hm
    | bool b => simp at hm
    | list xs => simp at hm
    | map es => simp at hm
    | str rs =>
      cases h₂ : List.lookup "externalID" a.additionalData with
      | none => rw [h₂] at hm; simp at hm
      | some w =>
        rw [h₂] at hm
        cases w with
        | null => simp at hm
        | int n => simp at hm
        | bool b => simp at hm
        | list xs => simp at hm
        | map es2 => simp at hm
        | str es =>
          simp only [Except.ok.injEq] at hm
          exact ⟨rs, es, rfl, rfl, hm.symm⟩

lemma readAccountModel_ok_inv {a : Models.Account} {m : AccountModel}
    (hm : readAccountModel a = .ok m) :
    ∃ rs es, List.lookup "roleARN" a.additionalData = some (.str rs) ∧
      List.lookup "externalID" a.additionalData = some (.str es) ∧
      m = { id := a.accountID, cloudProvider := a.cloudProvider, roleARN := rs, externalID := es,
            products := buildProducts a.products none } := by
  unfold readAccountModel at hm
  cases h₁ : List.lookup "roleARN" a.additionalData with
  | none => rw [h₁] at hm; simp at hm
  | some v =>
    rw [h₁] at hm
    cases v with
    | null => simp at hm
    | int n => simp at hm
    | bool b => simp at hm
    | list xs => simp at hm
    | map es => simp at hm
    | str rs =>
      cases h₂ : List.lookup "externalID" a.additionalData with
      | none => rw [h₂] at hm; simp at hm
      | some w =>
        rw [h₂] at hm
        cases w with
        | null => simp at hm
        | int n => simp at hm
        | bool b => simp at hm
        | list xs => simp at hm
        | map es2 => simp at hm
        | str es =>
          simp only [Except.ok.injEq] at hm
          exact ⟨rs, es, rfl, rfl, hm.symm⟩

lemma readAccountModel_isOk_eq (a : Models.Account) :
    isOkE (readAccountModel a) = isOkE (ToModel a) := by
  unfold readAccountModel ToModel
  cases List.lookup "roleARN" a.additionalData with
  | none => rfl
  | some v =>
    cases v <;> try rfl
    case str rs =>
      cases List.lookup "externalID" a.additionalData with
      | none => rfl
      | some w => cases w <;> rfl

lemma ToModel_missing_roleARN {a : Models.Account}
    (h : List.lookup "roleARN" a.additionalData = none) :
    ToModel a = .error ⟨"Missing role ARN for account",
      "account.AdditionalData.roleARN is nil or empty"⟩ := by
  unfold ToModel
  rw [h]

lemma ToModel_roleARN_mismatch {a : Models.Account} {v : GoValue}
    (h : List.lookup "roleARN" a.additionalData = some v) (hv : v.isString = false) :
    ToModel a = .error ⟨"Erroneous role ARN for account",
      "Expected string for role ARN but got " ++ goTypeName v⟩ := by
  unfold ToModel
  rw [h]
  cases v with
  | str s => simp [GoValue.isString] at hv
  | null => rfl
  | int n => rfl
  | bool b => rfl
  | list xs => rfl
  | map es => rfl

lemma ToModel_missing_externalID {a : Models.Account} {s : String}
    (hr : List.lookup "roleARN" a.additionalData = some (.str s))
    (he : List.lookup "externalID" a.additionalData = none) :
    ToModel a = .error ⟨"Missing external ID for account",
      "account.AdditionalData.externalID is nil or empty"⟩ := by
  unfold ToModel
  rw [hr, he]

lemma ToModel_externalID_mismatch {a : Models.Account} {s : String} {v : GoValue}
    (hr : List.lookup "roleARN" a.additionalData = some (.str s))
    (he : List.lookup "externalID" a.additionalData = some v) (hv : v.isString = false) :
    ToModel a = .error ⟨"Erroneous external ID for account",
      "Expected string for external ID but got " ++ goTypeName (GoValue.str s)⟩ := by
  unfold ToModel
  rw [hr, he]
  cases v with
  | str s2 => simp [GoValue.isString] at hv
  | null => rfl
  | int n => rfl
  | bool b => rfl
  | list xs => rfl
  | map es => rfl

lemma accountsRead_ok_eq (accounts : List Models.Account) :
    isOkE (AccountsDataSourceRead accounts) = accounts.all (fun a => isOkE (ToModel a)) := by
  induction accounts with
  | nil => rfl
  | cons a rest ih =>
    rw [List.all_cons, ← readAccountModel_isOk_eq a, ← ih]
    conv_lhs => rw [AccountsDataSourceRead]
    cases readAccountModel a with
    | error d => rfl
    | ok m =>
      cases AccountsDataSourceRead rest with
      | error d => rfl
      | ok ms => rfl

lemma products_sorted_of_ok {a : Models.Account} {m : AccountModel} (hm : ToModel a = .ok m) :
    List.Sorted (· ≤ ·) (m.products.map ProductModel.name) := by
  obtain ⟨rs, es, _, _, rfl⟩ := ToModel_ok_inv hm
  show List.Sorted (· ≤ ·)
    ((buildProducts a.products (some (yamlMarshal (parseValues a.additionalData)))).map ProductModel.name)
  rw [buildProducts_map_name]
  exact sortStrings_sorted _

lemma isNull_eq_false_iff (v : GoValue) : v.isNull = false ↔ v ≠ GoValue.null := by
  cases v <;> simp [GoValue.isNull]

/-- C1 (amended): for every Account whose additional-data lacks
"roleARN" the conversion fails with the missing-field diagnostic and
returns no model, and for every Account whose "roleARN" entry is present
but non-string it fails with the type-mismatch diagnostic; the same two
failure modes hold for "externalID" on accounts whose roleARN entry is
present and string-typed (the checks run in order, roleARN first). -/
theorem toModel_field_checks :
    (∀ a : Models.Account, List.lookup "roleARN" a.additionalData = none →
       ToModel a = .error ⟨"Missing role ARN for account",
         "account.AdditionalData.roleARN is nil or empty"⟩ ∧
       Diag.isMissingField ⟨"Missing role ARN for account",
         "account.AdditionalData.roleARN is nil or empty"⟩ = true)
  ∧ (∀ (a : Models.Account) (v : GoValue),
       List.lookup "roleARN" a.additionalData = some v → v.isString = false →
       ToModel a = .error ⟨"Erroneous role ARN for account",
         "Expected string for role ARN but got " ++ goTypeName v⟩ ∧
       Diag.isTypeMismatch ⟨"Erroneous role ARN for account",
         "Expected string for role ARN but got " ++ goTypeName v⟩ = true)
  ∧ (∀ (a : Models.Account) (s : String),
       List.lookup "roleARN" a.additionalData = some (.str s) →
       List.lookup "externalID" a.additionalData = none →
       ToModel a = .error ⟨"Missing external ID for account",
         "account.AdditionalData.externalID is nil or empty"⟩ ∧
       Diag.isMissingField ⟨"Missing external ID for account",
         "account.AdditionalData.externalID is nil or empty"⟩ = true)
  ∧ (∀ (a : Models.Account) (s : String) (v : GoValue),
       List.lookup "roleARN" a.additionalData = some (.str s) →
       List.lookup "externalID" a.additionalData = some v → v.isString = false →
       ToModel a = .error ⟨"Erroneous external ID for account",
         "Expected string for external ID but got " ++ goTypeName (GoValue.str s)⟩ ∧
       Diag.isTypeMismatch ⟨"Erroneous external ID for account",
         "Expected string for external ID but got " ++ goTypeName (GoValue.str s)⟩ = true) := by
  refine ⟨?_, ?_, ?_, ?_⟩
  · intro a h
    exact ⟨ToModel_missing_roleARN h, rfl⟩
  · intro a v h hv
    exact ⟨ToModel_roleARN_mismatch h hv, rfl⟩
  · intro a s hr he
    exact ⟨ToModel_missing_externalID hr he, rfl⟩
  · intro a s v hr he hv
    exact ⟨ToModel_externalID_mismatch hr he hv, rfl⟩

/-- C1 counterexample: an account whose "externalID" entry is present
and bound to a non-string value but whose "roleARN" key is absent fails
with the missing-role-ARN (missing-field) diagnostic, not with a
type-mismatch one, because the roleARN check runs first; so the claim's
unconditional symmetric clause for "externalID" is false as stated. -/
theorem toModel_externalID_check_order_cex :
    ToModel { accountID := "acc", cloudProvider := "aws", products := [],
              additionalData := [("externalID", GoValue.int 42)] }
      = .error ⟨"Missing role ARN for account",
          "account.AdditionalData.roleARN is nil or empty"⟩
    ∧ Diag.isTypeMismatch ⟨"Missing role ARN for account",
        "account.AdditionalData.roleARN is nil or empty"⟩ = false :=
  ⟨rfl, rfl⟩

/-- Witness for `toModel_field_checks` at four concrete accounts, one
per conjunct. -/
theorem toModel_field_checks_witness :
    (ToModel { accountID := "a1", cloudProvider := "aws", products := [],
               additionalData := [] }
       = .error ⟨"Missing role ARN for account",
           "account.AdditionalData.roleARN is nil or empty"⟩ ∧
     Diag.isMissingField ⟨"Missing role ARN for account",
       "account.AdditionalData.roleARN is nil or empty"⟩ = true)
  ∧ (ToModel { accountID := "a2", cloudProvider := "aws", products := [],
               additionalData := [("roleARN", GoValue.int 123), ("externalID", GoValue.str "ext")] }
       = .error ⟨"Erroneous role ARN for account",
           "Expected string for role ARN but got " ++ goTypeName (GoValue.int 123)⟩ ∧
     Diag.isTypeMismatch ⟨"Erroneous role ARN for account",
       "Expected string for role ARN but got " ++ goTypeName (GoValue.int 123)⟩ = true)
  ∧ (ToModel { accountID := "a3", cloudProvider := "aws", products := [],
               additionalData := [("roleARN", GoValue.str "arn:aws")] }
       = .error ⟨"Missing external ID for account",
           "account.AdditionalData.externalID is nil or empty"⟩ ∧
     Diag.isMissingField ⟨"Missing external ID for account",
       "account.AdditionalData.externalID is nil or empty"⟩ = true)
  ∧ (ToModel { accountID := "a4", cloudProvider := "aws", products := [],
               additionalData := [("roleARN", GoValue.str "arn:aws"), ("externalID", GoValue.int 42)] }
       = .error ⟨"Erroneous external ID for account",
           "Expected string for external ID but got " ++ goTypeName (GoValue.str "arn:aws")⟩ ∧
     Diag.isTypeMismatch ⟨"Erroneous external ID for account",
       "Expected string for external ID but got " ++ goTypeName (GoValue.str "arn:aws")⟩ = true) :=
  ⟨toModel_field_checks.1 _ rfl,
   toModel_field_checks.2.1 _ (GoValue.int 123) rfl rfl,
   toModel_field_checks.2.2.1 _ "arn:aws" rfl rfl,
   toModel_field_checks.2.2.2 _ "arn:aws" (GoValue.int 42) rfl rfl rfl⟩

/-- C10: when "roleARN" is present as a string and "externalID" is
present but non-string, the type-mismatch diagnostic reports in its
detail the dynamic type of the roleARN value, i.e. "string", which is
never the type name of the offending non-string externalID value. -/
theorem toModel_externalID_mismatch_reports_roleARN_type :
    ∀ (a : Models.Account) (s : String) (v : GoValue),
      List.lookup "roleARN" a.additionalData = some (.str s) →
      List.lookup "externalID" a.additionalData = some v →
      v.isString = false →
      ToModel a = .error ⟨"Erroneous external ID for account",
        "Expected string for external ID but got " ++ goTypeName (GoValue.str s)⟩
      ∧ goTypeName (GoValue.str s) = "string"
      ∧ goTypeName v ≠ "string" := by
  intro a s v hr he hv
  refine ⟨ToModel_externalID_mismatch hr he hv, rfl, ?_⟩
  cases v with
  | str s2 => simp [GoValue.isString] at hv
  | null => simp only [goTypeName]; decide
  | int n => simp only [goTypeName]; decide
  | bool b => simp only [goTypeName]; decide
  | list xs => simp only [goTypeName]; decide
  | map es => simp only [goTypeName]; decide

/-- Witness for `toModel_externalID_mismatch_reports_roleARN_type` at a
concrete account whose externalID holds the number 42. -/
theorem toModel_externalID_mismatch_reports_roleARN_type_witness :
    ToModel { accountID := "acc", cloudProvider := "aws", products := [],
              additionalData := [("roleARN", GoValue.str "arn:aws"), ("externalID", GoValue.int 42)] }
      = .error ⟨"Erroneous external ID for account",
          "Expected string for external ID but got " ++ goTypeName (GoValue.str "arn:aws")⟩
    ∧ goTypeName (GoValue.str "arn:aws") = "string"
    ∧ goTypeName (GoValue.int 42) ≠ "string" :=
  toModel_externalID_mismatch_reports_roleARN_type _ "arn:aws" (GoValue.int 42) rfl rfl rfl

/-- C2 counterexample: the "values" map containing metadata, a nil entry
and "b": "ok" filters down to exactly the entry b, but the blob the code
produces is the YAML text `b: ok` plus newline, not the JSON-style text
the claim states. -/
theorem parseValues_yaml_not_json_cex :
    parseValues [("values", GoValue.map
        [("metadata", GoValue.str "x"), ("a", GoValue.null), ("b", GoValue.str "ok")])]
      = [("b", GoValue.str "ok")]
    ∧ yamlMarshal (parseValues [("values", GoValue.map
        [("metadata", GoValue.str "x"), ("a", GoValue.null), ("b", GoValue.str "ok")])])
      = "b: ok\n"
    ∧ ("b: ok\n" : String) ≠ "\x7b\"b\": \"ok\"\x7d" :=
  ⟨rfl, rfl, by decide⟩

/-- C2 (amended): the "values" sub-map is filtered by dropping every
nil-valued entry and the literal key "metadata"; the concrete map of the
claim serializes to exactly the YAML text `b: ok` plus newline (not the
JSON-style text the claim states); and the single serialized blob is
attached identically to every product entry of the converted model. -/
theorem toModel_values_filtering :
    (∀ (input vs : List (String × GoValue)) (k : String) (v : GoValue),
       List.lookup "values" input = some (.map vs) →
       ((k, v) ∈ parseValues input ↔ (k, v) ∈ vs ∧ v ≠ GoValue.null ∧ k ≠ "metadata"))
  ∧ (∀ input : List (String × GoValue),
       List.lookup "values" input = none → parseValues input = [])
  ∧ yamlMarshal (parseValues [("values", GoValue.map
       [("metadata", GoValue.str "x"), ("a", GoValue.null), ("b", GoValue.str "ok")])])
      = "b: ok\n"
  ∧ (∀ (a : Models.Account) (m : AccountModel), ToModel a = .ok m →
       ∀ p ∈ m.products, p.values = some (yamlMarshal (parseValues a.additionalData))) := by
  refine ⟨?_, ?_, rfl, ?_⟩
  · intro input vs k v h
    unfold parseValues
    rw [h]
    simp [List.mem_filter, isNull_eq_false_iff]
  · intro input h
    unfold parseValues
    rw [h]
  · intro a m hm
    obtain ⟨rs, es, _, _, rfl⟩ := ToModel_ok_inv hm
    exact buildProducts_values_mem _ _

/-- Witness for `toModel_values_filtering`: the filter membership at the
concrete entry ("b", "ok") and the uniform blob on the product of a
concrete converted account carrying the claim's "values" map. -/
theorem toModel_values_filtering_witness :
    (("b", GoValue.str "ok") ∈ parseValues [("values", GoValue.map
        [("metadata", GoValue.str "x"), ("a", GoValue.null), ("b", GoValue.str "ok")])]
      ↔ ("b", GoValue.str "ok") ∈
          [("metadata", GoValue.str "x"), ("a", GoValue.null), ("b", GoValue.str "ok")]
        ∧ GoValue.str "ok" ≠ GoValue.null ∧ ("b" : String) ≠ "metadata")
  ∧ ProductModel.values ⟨"Kompass", true, some "b: ok\n"⟩
      = some (yamlMarshal (parseValues [("roleARN", GoValue.str "arn"),
          ("externalID", GoValue.str "ext"),
          ("values", GoValue.map
            [("metadata", GoValue.str "x"), ("a", GoValue.null), ("b", GoValue.str "ok")])])) :=
  ⟨toModel_values_filtering.1 _
      [("metadata", GoValue.str "x"), ("a", GoValue.null), ("b", GoValue.str "ok")]
      "b" (GoValue.str "ok") rfl,
   toModel_values_filtering.2.2.2
     { accountID := "acc", cloudProvider := "aws",
       products := [("Kompass", ⟨true⟩)],
       additionalData := [("roleARN", GoValue.str "arn"), ("externalID", GoValue.str "ext"),
         ("values", GoValue.map
           [("metadata", GoValue.str "x"), ("a", GoValue.null), ("b", GoValue.str "ok")])] }
     { id := "acc", cloudProvider := "aws", roleARN := "arn", externalID := "ext",
       products := [⟨"Kompass", true, some "b: ok\n"⟩] }
     rfl ⟨"Kompass", true, some "b: ok\n"⟩ (by simp)⟩

/-- C3 counterexample: `NewClient(nil, "tok")` yields a client whose
host is the client package default `http://localhost:9000`, which is not
the fixed production URL `models.DefaultHostURL` the spec identifies as
the documented default. -/
theorem newClient_production_url_cex :
    Client.NewClient none "tok"
      = .ok { hostURL := "http://localhost:9000", httpClient := ⟨60⟩, token := "tok" }
    ∧ Client.DefaultHostURL ≠ Models.DefaultHostURL :=
  ⟨rfl, by decide⟩

/-- C3 (amended): calling `NewClient` with a nil host pointer yields a
client whose host URL equals the client package's own default
`http://localhost:9000`; the fixed production URL
`https://api.cloudvisor.io/kompass-platform` is the distinct
`models.DefaultHostURL` constant, applied during provider configuration
before `NewClient` is ever called with an empty host, not by `NewClient`
itself. -/
theorem newClient_nil_host_uses_client_default :
    ∀ token : String,
      Client.NewClient none token
        = .ok { hostURL := Client.DefaultHostURL, httpClient := ⟨60⟩, token := token }
      ∧ Client.DefaultHostURL = "http://localhost:9000"
      ∧ Models.DefaultHostURL = "https://api.cloudvisor.io/kompass-platform" := by
  intro token
  exact ⟨rfl, rfl, rfl⟩

/-- C9: for every host pointer (including nil) and every token string
(including the empty string), `NewClient` returns a non-nil client and a
nil error; the client carries the resolved host, the 60-second timeout
and the given token. -/
theorem newClient_never_fails :
    ∀ (host : Option String) (token : String),
      Client.NewClient host token
        = .ok { hostURL := host.getD Client.DefaultHostURL, httpClient := ⟨60⟩, token := token } := by
  intro host token
  cases host <;> rfl

/-- C4: for every response obtained by `DoRequest`, status 200 or 201
succeeds and returns the raw body; any other status fails with the error
`status: <code>, body: <raw body>` carrying the body verbatim; and a
transport-level failure fails with the transport error before any status
classification. -/
theorem doRequest_classification :
    ∀ (c : Client.Client) (transport : Client.Request → Client.HTTPResult) (req : Client.Request),
      (∀ body, transport (Client.reqWithAuth c req) = .response 200 body →
        Client.DoRequest c transport req = .ok body)
    ∧ (∀ body, transport (Client.reqWithAuth c req) = .response 201 body →
        Client.DoRequest c transport req = .ok body)
    ∧ (∀ status body, status ≠ 200 → status ≠ 201 →
        transport (Client.reqWithAuth c req) = .response status body →
        Client.DoRequest c transport req =
          .error ("status: " ++ toString status ++ ", body: " ++ body))
    ∧ (∀ e, transport (Client.reqWithAuth c req) = .transportError e →
        Client.DoRequest c transport req = .error e) := by
  intro c transport req
  refine ⟨?_, ?_, ?_, ?_⟩
  · intro body h
    unfold Client.DoRequest
    rw [h]
    simp
  · intro body h
    unfold Client.DoRequest
    rw [h]
    simp
  · intro status body h200 h201 h
    unfold Client.DoRequest
    rw [h]
    simp [h200, h201]
  · intro e h
    unfold Client.DoRequest
    rw [h]

/-- Witness for `doRequest_classification`: a 200 response returns its
body, a 403 response yields the verbatim error text of the spec example,
and a refused connection propagates the transport error. -/
theorem doRequest_classification_witness :
    Client.DoRequest ⟨"http://h", ⟨60⟩, "tok"⟩
        (fun _ => .response 200 "\x7b\"message\":\"success\"\x7d")
        ⟨"GET", "http://h/test", [], none⟩
      = .ok "\x7b\"message\":\"success\"\x7d"
  ∧ Client.DoRequest ⟨"http://h", ⟨60⟩, "tok"⟩
        (fun _ => .response 403 "\x7b\"error\":\"forbidden\"\x7d")
        ⟨"GET", "http://h/test", [], none⟩
      = .error ("status: " ++ toString 403 ++ ", body: " ++ "\x7b\"error\":\"forbidden\"\x7d")
  ∧ Client.DoRequest ⟨"http://h", ⟨60⟩, "tok"⟩
        (fun _ => .transportError "connection refused")
        ⟨"GET", "http://h/test", [], none⟩
      = .error "connection refused" :=
  ⟨(doRequest_classification _ _ _).1 _ rfl,
   (doRequest_classification _ _ _).2.2.1 403 _ (by decide) (by decide) rfl,
   (doRequest_classification _ _ _).2.2.2 _ rfl⟩

lemma Configure_eq (configHost configToken : Option String) (envHost envToken : String) :
    Configure configHost configToken envHost envToken =
      if configToken.getD envToken = "" then
        .error ⟨"Missing Zesty API Token",
          "The provider cannot create the Zesty API client as there is a missing or empty value for the Zesty API token."⟩
      else
        .ok ((if configHost.getD envHost = "" then Models.DefaultHostURL
              else configHost.getD envHost),
             configToken.getD envToken) := by
  cases configHost <;> cases configToken <;> rfl

/-- C8: in the configuration value-resolution step, host and token each
resolve with the explicit setting taking precedence over the environment
variable; resolution fails exactly when the resolved token is empty; and
an empty resolved host is replaced by the production default URL instead
of failing. -/
theorem configure_resolution :
    ∀ (configHost configToken : Option String) (envHost envToken : String),
      ((∃ d, Configure configHost configToken envHost envToken = .error d) ↔
        configToken.getD envToken = "")
    ∧ (∀ h t, Configure configHost configToken envHost envToken = .ok (h, t) →
        t = configToken.getD envToken ∧
        h = (if configHost.getD envHost = "" then Models.DefaultHostURL
             else configHost.getD envHost)) := by
  intro configHost configToken envHost envToken
  constructor
  · rw [Configure_eq]
    by_cases ht : configToken.getD envToken = ""
    · simp [ht]
    · simp [ht]
  · intro h t hok
    rw [Configure_eq] at hok
    by_cases ht : configToken.getD envToken = ""
    · rw [if_pos ht] at hok
      simp at hok
    · rw [if_neg ht] at hok
      simp only [Except.ok.injEq, Prod.mk.injEq] at hok
      exact ⟨hok.2.symm, hok.1.symm⟩

/-- Witness for `configure_resolution`: an explicit host and token
override non-empty environment values; with no token anywhere the
resolution fails; an empty resolved host falls back to the production
default. -/
theorem configure_resolution_witness :
    (("tok" : String) = (some "tok").getD "envtok" ∧
     ("http://custom" : String) =
       (if (some "http://custom").getD "envhost" = "" then Models.DefaultHostURL
        else (some "http://custom").getD "envhost"))
  ∧ (∃ d, Configure none none "envhost" "" = .error d)
  ∧ (("tok2" : String) = (some "tok2").getD "" ∧
     Models.DefaultHostURL =
       (if (none : Option String).getD "" = "" then Models.DefaultHostURL
        else (none : Option String).getD "")) :=
  ⟨(configure_resolution (some "http://custom") (some "tok") "envhost" "envtok").2
      "http://custom" "tok" rfl,
   (configure_resolution none none "envhost" "").1.mpr rfl,
   (configure_resolution none (some "tok2") "" "").2 Models.DefaultHostURL "tok2" rfl⟩

lemma products_perm_of_ok {a : Models.Account} {m : AccountModel} (hm : ToModel a = .ok m) :
    (m.products.map ProductModel.name).Perm (a.products.map Prod.fst) := by
  obtain ⟨rs, es, _, _, rfl⟩ := ToModel_ok_inv hm
  show ((buildProducts a.products
    (some (yamlMarshal (parseValues a.additionalData)))).map ProductModel.name).Perm _
  rw [buildProducts_map_name]
  exact sortStrings_perm _

/-- C5: the product list of every model produced by `ToModel` is sorted
lexicographically by product name; when the input product map has
distinct keys (as a Go map does) the emitted names are exactly those
keys, without duplicates; the result does not depend on the iteration
order of the input product map; and every resource state produced by
`Create`, `Read`, `Update` or `ImportState` satisfies the same
sortedness predicate. -/
theorem toModel_products_sorted :
    (∀ (a : Models.Account) (m : AccountModel), ToModel a = .ok m →
       List.Sorted (· ≤ ·) (m.products.map ProductModel.name))
  ∧ (∀ (a : Models.Account) (m : AccountModel), ToModel a = .ok m →
       (a.products.map Prod.fst).Nodup →
       (m.products.map ProductModel.name).Nodup ∧
       (m.products.map ProductModel.name).Perm (a.products.map Prod.fst))
  ∧ (∀ a a' : Models.Account, a.accountID = a'.accountID →
       a.cloudProvider = a'.cloudProvider →
       a.additionalData = a'.additionalData → a.products.Perm a'.products →
       (a.products.map Prod.fst).Nodup →
       ToModel a = ToModel a')
  ∧ (∀ (plan : AccountResourceModel) (api : Models.Payload → Except String Models.Account)
       (now : String) (st : AccountResourceModel), Create plan api now = .ok st →
       List.Sorted (· ≤ ·) (st.account.products.map ProductModel.name))
  ∧ (∀ (state : AccountResourceModel) (api : String → Except String Models.Account)
       (st : AccountResourceModel), Read state api = .ok st →
       List.Sorted (· ≤ ·) (st.account.products.map ProductModel.name))
  ∧ (∀ (plan : AccountResourceModel) (api : Models.Payload → Except String Models.Account)
       (now : String) (st : AccountResourceModel), Update plan api now = .ok st →
       List.Sorted (· ≤ ·) (st.account.products.map ProductModel.name))
  ∧ (∀ (id : String) (api : String → Except String Models.Account)
       (st : AccountResourceModel), ImportState id api = .ok st →
       List.Sorted (· ≤ ·) (st.account.products.map ProductModel.name)) := by
  refine ⟨fun a m hm => products_sorted_of_ok hm, ?_, ?_, ?_, ?_, ?_, ?_⟩
  · intro a m hm hnd
    exact ⟨((products_perm_of_ok hm).nodup_iff).mpr hnd, products_perm_of_ok hm⟩
  · intro a a' hid hcp had hperm hnd
    unfold ToModel
    rw [hid, hcp, had]
    simp only [buildProducts_eq_of_perm hperm hnd]
  · intro plan api now st h
    unfold Create at h
    cases ha : api (payloadFromPlan plan.account) with
    | error e => simp [ha] at h
    | ok account =>
      simp only [ha] at h
      cases hm : ToModel account with
      | error d => simp [hm] at h
      | ok model =>
        simp only [hm, Except.ok.injEq] at h
        subst h
        exact products_sorted_of_ok hm
  · intro state api st h
    unfold Read at h
    cases ha : api state.id with
    | error e => simp [ha] at h
    | ok account =>
      simp only [ha] at h
      cases hm : ToModel account with
      | error d => simp [hm] at h
      | ok model =>
        simp only [hm, Except.ok.injEq] at h
        subst h
        exact products_sorted_of_ok hm
  · intro plan api now st h
    unfold Update at h
    cases ha : api (payloadFromPlan plan.account) with
    | error e => simp [ha] at h
    | ok account =>
      simp only [ha] at h
      cases hm : ToModel account with
      | error d => simp [hm] at h
      | ok model =>
        simp only [hm, Except.ok.injEq] at h
        subst h
        exact products_sorted_of_ok hm
  · intro id api st h
    unfold ImportState at h
    cases ha : api id with
    | error e => simp [ha] at h
    | ok account =>
      simp only [ha] at h
      cases hm : ToModel account with
      | error d => simp [hm] at h
      | ok model =>
        simp only [hm, Except.ok.injEq] at h
        subst h
        exact products_sorted_of_ok hm

/-- Witness for `toModel_products_sorted`: a concrete account whose
product map lists Kompass before CM converts to a model whose product
names come out sorted (CM before Kompass) and are a permutation of the
input keys. -/
theorem toModel_products_sorted_witness :
    List.Sorted (· ≤ ·)
      ((({ id := "acc", cloudProvider := "AWS", roleARN := "arn", externalID := "ext",
           products := [⟨"CM", false, some "\x7b\x7d\n"⟩, ⟨"Kompass", true, some "\x7b\x7d\n"⟩] }
         : AccountModel).products).map ProductModel.name)
  ∧ ((({ id := "acc", cloudProvider := "AWS", roleARN := "arn", externalID := "ext",
         products := [⟨"CM", false, some "\x7b\x7d\n"⟩, ⟨"Kompass", true, some "\x7b\x7d\n"⟩] }
       : AccountModel).products).map ProductModel.name).Perm
      (([("Kompass", (⟨true⟩ : Models.ProductDetails)), ("CM", ⟨false⟩)]).map Prod.fst) :=
  ⟨toModel_products_sorted.1
      { accountID := "acc", cloudProvider := "AWS",
        products := [("Kompass", ⟨true⟩), ("CM", ⟨false⟩)],
        additionalData := [("roleARN", GoValue.str "arn"), ("externalID", GoValue.str "ext")] }
      _ (by rfl),
   (toModel_products_sorted.2.1
      { accountID := "acc", cloudProvider := "AWS",
        products := [("Kompass", ⟨true⟩), ("CM", ⟨false⟩)],
        additionalData := [("roleARN", GoValue.str "arn"), ("externalID", GoValue.str "ext")] }
      _ (by rfl) (by decide)).2⟩

/-- C6: the data-source listing applies per account exactly the same
roleARN/externalID presence and string-type checks as `ToModel` (one
succeeds exactly when the other does), the whole read succeeds exactly
when every listed account passes the checks, and on success the two
paths agree on every field and product name/flag -- except that the
data-source product entries never carry the serialized "values" blob
that `ToModel` attaches to every product. -/
theorem dataSource_read_matches_conversion :
    (∀ a : Models.Account, isOkE (readAccountModel a) = isOkE (ToModel a))
  ∧ (∀ (a : Models.Account) (m₁ m₂ : AccountModel),
       readAccountModel a = .ok m₁ → ToModel a = .ok m₂ →
       m₁.id = m₂.id ∧ m₁.cloudProvider = m₂.cloudProvider ∧
       m₁.roleARN = m₂.roleARN ∧ m₁.externalID = m₂.externalID ∧
       m₁.products.map (fun p => (p.name, p.active)) =
         m₂.products.map (fun p => (p.name, p.active)) ∧
       (∀ p ∈ m₁.products, p.values = none) ∧
       (∀ p ∈ m₂.products, p.values = some (yamlMarshal (parseValues a.additionalData))))
  ∧ (∀ accounts : List Models.Account,
       isOkE (AccountsDataSourceRead accounts) = accounts.all (fun a => isOkE (ToModel a))) := by
  refine ⟨readAccountModel_isOk_eq, ?_, accountsRead_ok_eq⟩
  intro a m₁ m₂ h1 h2
  obtain ⟨rs, es, hr, he, rfl⟩ := readAccountModel_ok_inv h1
  obtain ⟨rs2, es2, hr2, he2, rfl⟩ := ToModel_ok_inv h2
  obtain rfl : rs = rs2 := by
    have := hr.symm.trans hr2
    simpa using this
  obtain rfl : es = es2 := by
    have := he.symm.trans he2
    simpa using this
  refine ⟨rfl, rfl, rfl, rfl, ?_, ?_, ?_⟩
  · show (buildProducts a.products none).map _ =
      (buildProducts a.products (some (yamlMarshal (parseValues a.additionalData)))).map _
    rw [buildProducts_nameActive, buildProducts_nameActive]
  · exact buildProducts_values_mem _ _
  · exact buildProducts_values_mem _ _

/-- Witness for `dataSource_read_matches_conversion`: on a concrete
account the data-source path and the conversion path agree on the
product names and flags, while the conversion path also attaches the
serialized empty values blob. -/
theorem dataSource_read_matches_conversion_witness :
    (([(⟨"Kompass", true, none⟩ : ProductModel)]).map (fun p => (p.name, p.active)) =
      ([(⟨"Kompass", true, some "\x7b\x7d\n"⟩ : ProductModel)]).map (fun p => (p.name, p.active)))
  ∧ isOkE (AccountsDataSourceRead []) = ([] : List Models.Account).all (fun a => isOkE (ToModel a)) :=
  ⟨((dataSource_read_matches_conversion.2.1
      { accountID := "acc", cloudProvider := "aws",
        products := [("Kompass", ⟨true⟩)],
        additionalData := [("roleARN", GoValue.str "arn"), ("externalID", GoValue.str "ext")] }
      { id := "acc", cloudProvider := "aws", roleARN := "arn", externalID := "ext",
        products := [⟨"Kompass", true, none⟩] }
      { id := "acc", cloudProvider := "aws", roleARN := "arn", externalID := "ext",
        products := [⟨"Kompass", true, some "\x7b\x7d\n"⟩] }
      (by rfl) (by rfl)).2.2.2.2.1),
   dataSource_read_matches_conversion.2.2 []⟩

/-- C7: for every CRUD transition (Create, Read, Update, Delete,
Import), if the underlying API call fails, or the conversion of the
returned account fails, the transition produces an error diagnostic and
the persisted state is exactly the prior state. -/
theorem crud_failure_preserves_state :
    (∀ (prior : Option AccountResourceModel) (plan : AccountResourceModel)
       (api : Models.Payload → Except String Models.Account) (now : String),
       ((∃ e, api (payloadFromPlan plan.account) = .error e) ∨
        (∃ account d, api (payloadFromPlan plan.account) = .ok account ∧
          ToModel account = .error d)) →
       (∃ d, Create plan api now = .error d) ∧
       persist prior (Create plan api now) = prior)
  ∧ (∀ (prior : Option AccountResourceModel) (state : AccountResourceModel)
       (api : String → Except String Models.Account),
       ((∃ e, api state.id = .error e) ∨
        (∃ account d, api state.id = .ok account ∧ ToModel account = .error d)) →
       (∃ d, Read state api = .error d) ∧
       persist prior (Read state api) = prior)
  ∧ (∀ (prior : Option AccountResourceModel) (plan : AccountResourceModel)
       (api : Models.Payload → Except String Models.Account) (now : String),
       ((∃ e, api (payloadFromPlan plan.account) = .error e) ∨
        (∃ account d, api (payloadFromPlan plan.account) = .ok account ∧
          ToModel account = .error d)) →
       (∃ d, Update plan api now = .error d) ∧
       persist prior (Update plan api now) = prior)
  ∧ (∀ (prior : Option AccountResourceModel) (state : AccountResourceModel)
       (api : Models.Payload → Except String Unit),
       (∃ e, api (deletePayload state) = .error e) →
       (∃ d, Delete state api = .error d) ∧
       persistDelete prior (Delete state api) = prior)
  ∧ (∀ (prior : Option AccountResourceModel) (id : String)
       (api : String → Except String Models.Account),
       ((∃ e, api id = .error e) ∨
        (∃ account d, api id = .ok account ∧ ToModel account = .error d)) →
       (∃ d, ImportState id api = .error d) ∧
       persist prior (ImportState id api) = prior) := by
  refine ⟨?_, ?_, ?_, ?_, ?_⟩
  · intro prior plan api now h
    unfold Create persist
    rcases h with ⟨e, he⟩ | ⟨account, d, ha, hd⟩
    · simp only [he]
      exact ⟨⟨_, rfl⟩, trivial⟩
    · simp only [ha, hd]
      exact ⟨⟨_, rfl⟩, trivial⟩
  · intro prior state api h
    unfold Read persist
    rcases h with ⟨e, he⟩ | ⟨account, d, ha, hd⟩
    · simp only [he]
      exact ⟨⟨_, rfl⟩, trivial⟩
    · simp only [ha, hd]
      exact ⟨⟨_, rfl⟩, trivial⟩
  · intro prior plan api now h
    unfold Update persist
    rcases h with ⟨e, he⟩ | ⟨account, d, ha, hd⟩
    · simp only [he]
      exact ⟨⟨_, rfl⟩, trivial⟩
    · simp only [ha, hd]
      exact ⟨⟨_, rfl⟩, trivial⟩
  · intro prior state api h
    unfold Delete persistDelete
    obtain ⟨e, he⟩ := h
    simp only [he]
    exact ⟨⟨_, rfl⟩, trivial⟩
  · intro prior id api h
    unfold ImportState persist
    rcases h with ⟨e, he⟩ | ⟨account, d, ha, hd⟩
    · simp only [he]
      exact ⟨⟨_, rfl⟩, trivial⟩
    · simp only [ha, hd]
      exact ⟨⟨_, rfl⟩, trivial⟩

/-- Witness for `crud_failure_preserves_state`: with a failing API the
five transitions all leave a concrete prior state untouched, and with an
API returning an account that fails conversion the Create transition
does too. -/
theorem crud_failure_preserves_state_witness :
    ((∃ d, Create ⟨"id0", ⟨"id0", "AWS", none, "arn", "ext", []⟩, none⟩
        (fun _ => .error "boom") "now" = .error d) ∧
     persist (some ⟨"id0", ⟨"id0", "AWS", none, "arn", "ext", []⟩, none⟩)
       (Create ⟨"id0", ⟨"id0", "AWS", none, "arn", "ext", []⟩, none⟩
         (fun _ => .error "boom") "now")
       = some ⟨"id0", ⟨"id0", "AWS", none, "arn", "ext", []⟩, none⟩)
  ∧ ((∃ d, Create ⟨"id0", ⟨"id0", "AWS", none, "arn", "ext", []⟩, none⟩
        (fun _ => .ok { accountID := "id0", cloudProvider := "AWS",
                        products := [], additionalData := [] }) "now" = .error d) ∧
     persist none
       (Create ⟨"id0", ⟨"id0", "AWS", none, "arn", "ext", []⟩, none⟩
         (fun _ => .ok { accountID := "id0", cloudProvider := "AWS",
                         products := [], additionalData := [] }) "now")
       = none)
  ∧ ((∃ d, Read ⟨"id0", ⟨"id0", "AWS", none, "arn", "ext", []⟩, none⟩
        (fun _ => .error "boom") = .error d) ∧
     persist none (Read ⟨"id0", ⟨"id0", "AWS", none, "arn", "ext", []⟩, none⟩
       (fun _ => .error "boom")) = none)
  ∧ ((∃ d, Update ⟨"id0", ⟨"id0", "AWS", none, "arn", "ext", []⟩, none⟩
        (fun _ => .error "boom") "now" = .error d) ∧
     persist none (Update ⟨"id0", ⟨"id0", "AWS", none, "arn", "ext", []⟩, none⟩
       (fun _ => .error "boom") "now") = none)
  ∧ ((∃ d, Delete ⟨"id0", ⟨"id0", "AWS", none, "arn", "ext", []⟩, none⟩
        (fun _ => .error "boom") = .error d) ∧
     persistDelete none (Delete ⟨"id0", ⟨"id0", "AWS", none, "arn", "ext", []⟩, none⟩
       (fun _ => .error "boom")) = none)
  ∧ ((∃ d, ImportState "id0" (fun _ => .error "boom") = .error d) ∧
     persist none (ImportState "id0" (fun _ => .error "boom")) = none) :=
  ⟨crud_failure_preserves_state.1 _ _ _ _ (Or.inl ⟨"boom", rfl⟩),
   crud_failure_preserves_state.1 _ _ _ _
     (Or.inr ⟨{ accountID := "id0", cloudProvider := "AWS",
                products := [], additionalData := [] },
       ⟨"Missing role ARN for account", "account.AdditionalData.roleARN is nil or empty"⟩,
       rfl, rfl⟩),
   crud_failure_preserves_state.2.1 _ _ _ (Or.inl ⟨"boom", rfl⟩),
   crud_failure_preserves_state.2.2.1 _ _ _ _ (Or.inl ⟨"boom", rfl⟩),
   crud_failure_preserves_state.2.2.2.1 _ _ _ ⟨"boom", rfl⟩,
   crud_failure_preserves_state.2.2.2.2 _ _ _ (Or.inl ⟨"boom", rfl⟩)⟩
